import Mathlib

/-!
Verification development for the streaming JSON completion engine
(`telomere_json`): a shallow embedding of the crate's lexer, container-stack
manager, completion synthesizer and engine facade, followed by theorems about
the behaviours described in the design document.

Embedding conventions:
* Rust functions taking `&mut JSONState` and returning `Result<Token, E>` are
  embedded as pure functions returning `JSONState × Except E Token` (the state
  component is the post-call value of the borrowed state).
* The container stack `Vec<ClosingToken>` (push/pop at the end) is embedded as
  a `List ClosingToken` whose HEAD is the top of the stack, so `Vec::push` is
  `cons`, `Vec::pop` takes the head, and `Vec::last` is `List.head?`;
  `stack.iter().rev()` (top-to-bottom) is the list in its own order.
* `str::parse::<f64>().is_ok()` is embedded as `rustF64Parses`, a boolean
  recogniser of the grammar accepted by Rust's `f64: FromStr`
  (optional sign, then `inf`/`infinity`/`nan` case-insensitively, or digits
  with an optional fraction part and an optional signed exponent, with at
  least one digit in the mantissa and at least one digit in any exponent).
-/

/-- Lexical sub-state of a string, from `parser/state_types.rs`. -/
inductive StringState where
  | Open
  | Closed
  | Escaped
deriving DecidableEq, Repr

/-- Sub-state of a number/keyword value with its accumulated buffer, from
`parser/state_types.rs`. -/
inductive NonStringState where
  | Completable (buf : String)
  | NonCompletable (buf : String)
deriving DecidableEq, Repr

/-- Value sub-state, from `parser/state_types.rs`. The `NestedValueCompleted`
variant does not appear in the snapshot of `parser/state_types.rs` but is
matched on by `lexer/quote.rs` and `lexer/dispatcher.rs`, so the compiling
crate necessarily declares it; it is included here for those handlers. -/
inductive PrimValue where
  | String (s : StringState)
  | NonString (n : NonStringState)
  | NestedValueCompleted
deriving DecidableEq, Repr

/-- Object-context sub-state, from `parser/state_types.rs`. -/
inductive BraceState where
  | Empty
  | ExpectingKey
  | InKey (s : StringState)
  | ExpectingValue
  | InValue (v : PrimValue)
deriving DecidableEq, Repr

/-- Array-context sub-state, from `parser/state_types.rs`. -/
inductive BracketState where
  | Empty
  | InValue (v : PrimValue)
  | ExpectingValue
deriving DecidableEq, Repr

/-- The lexical state of the parser, from `parser/state_types.rs`. -/
inductive JSONState where
  | Brace (b : BraceState)
  | Bracket (b : BracketState)
  | Pending
deriving DecidableEq, Repr

/-- Token kinds emitted by the lexer, from `lexer/lexer_types.rs`. The
`StringContent` variant is the one returned by `lexer/string_data.rs` (the
snapshot of `lexer_types.rs` predates it). -/
inductive Token where
  | OpenBrace
  | CloseBrace
  | OpenBracket
  | CloseBracket
  | OpenKey
  | CloseKey
  | OpenStringData
  | CloseStringData
  | NonStringData
  | Comma
  | Colon
  | Whitespace
  | StringContent
deriving DecidableEq, Repr

/-- Open/close selector passed to the brace/bracket handlers, from
`lexer/lexer_types.rs`. -/
inductive RecursiveStructureType where
  | Open
  | Close
deriving DecidableEq, Repr

/-- Modelled from the spec: the lexer error kinds of section 7. The crate
declares a `lexer_error_types` module whose file is absent from the snapshot;
the variants are the ones constructed and matched across the lexer, the
top-level oracle and `parser/public_error.rs`. -/
inductive JSONParseError where
  | UnexpectedEscape
  | InvalidCharEncountered
  | QuoteCharAfterKeyClose
  | QuoteCharAfterValueClose
  | QuoteCharInNonStringData
  | UnexpectedQuoteChar
  | UnexpectedComma
  | UnexpectedColon
  | UnexpectedOpenBrace
  | UnexpectedCloseBrace
  | UnexpectedOpenBracket
  | UnexpectedCloseBracket
  | UnexpectedCharInNonStringData
  | NotClosableInsideUnicode
  | InvalidCharInLiteral
  | InvalidCharInNumber
  | InvalidNonStringDataFirstChar
  | TokenParseErrorMisc (msg : String)
deriving DecidableEq, Repr

/-- Stack-manager error kinds, from `parser/structural_types.rs`. -/
inductive TokenProcessingError where
  | NotAStructuralToken
  | NotClosable
  | NotAnOpeningOrClosingToken
  | NotAnOpeningToken
  | NotAClosingToken
  | CorruptedStackMismatchedTokens
  | CorruptedStackEmptyOnClose
deriving DecidableEq, Repr

/-- Structural tokens, from `parser/structural_types.rs`. -/
inductive StructuralToken where
  | OpenBrace
  | CloseBrace
  | OpenBracket
  | CloseBracket
  | OpenKey
  | CloseKey
  | OpenStringData
  | CloseStringData
deriving DecidableEq, Repr

/-- Opening structural tokens, from `parser/structural_types.rs`. -/
inductive OpeningToken where
  | OpenBrace
  | OpenBracket
  | OpenKey
  | OpenStringData
deriving DecidableEq, Repr

/-- Closing markers held on the container stack, from
`parser/structural_types.rs`. -/
inductive ClosingToken where
  | CloseBrace
  | CloseBracket
  | CloseKey
  | CloseStringData
deriving DecidableEq, Repr

/-- Completion-synthesizer error kind. Modelled from the spec: the
`BalancingError` enum is used by `parser/get_balancing_chars.rs` and converted
in `parser/public_error.rs` (arms `NotClosable` and `Corrupted`) but its
declaration is absent from the snapshot of `parser/structural_types.rs`. -/
inductive BalancingError where
  | NotClosable
  | Corrupted
deriving DecidableEq, Repr

/-- Public error type of the engine, from `parser/public_error.rs` (the
`CharError` newtype around the lexer error is inlined). -/
inductive Error where
  | Char (e : JSONParseError)
  | NotClosable
  | Corrupted
deriving DecidableEq, Repr

/-- `TryFrom<&Token> for StructuralToken`, from `parser/structural_types.rs`,
as an `Option`. `StringContent` is non-structural; modelled from the spec,
section 4.3, which lists it with the other no-op tokens (the snapshot of
`structural_types.rs` predates the `StringContent` token). -/
def structuralTokenOfToken : Token → Option StructuralToken
  | Token.OpenBrace => some StructuralToken.OpenBrace
  | Token.CloseBrace => some StructuralToken.CloseBrace
  | Token.OpenBracket => some StructuralToken.OpenBracket
  | Token.CloseBracket => some StructuralToken.CloseBracket
  | Token.OpenKey => some StructuralToken.OpenKey
  | Token.CloseKey => some StructuralToken.CloseKey
  | Token.OpenStringData => some StructuralToken.OpenStringData
  | Token.CloseStringData => some StructuralToken.CloseStringData
  | Token.NonStringData => none
  | Token.Comma => none
  | Token.Colon => none
  | Token.Whitespace => none
  | Token.StringContent => none

/-- `TryFrom<&StructuralToken> for OpeningToken`, from
`parser/structural_types.rs`. -/
def openingOfStructural : StructuralToken → Option OpeningToken
  | StructuralToken.OpenBrace => some OpeningToken.OpenBrace
  | StructuralToken.OpenBracket => some OpeningToken.OpenBracket
  | StructuralToken.OpenKey => some OpeningToken.OpenKey
  | StructuralToken.OpenStringData => some OpeningToken.OpenStringData
  | _ => none

/-- `TryFrom<&StructuralToken> for ClosingToken`, from
`parser/structural_types.rs`. -/
def closingOfStructural : StructuralToken → Option ClosingToken
  | StructuralToken.CloseBrace => some ClosingToken.CloseBrace
  | StructuralToken.CloseBracket => some ClosingToken.CloseBracket
  | StructuralToken.CloseKey => some ClosingToken.CloseKey
  | StructuralToken.CloseStringData => some ClosingToken.CloseStringData
  | _ => none

/-- `OpeningToken::get_closing_token`, from `parser/structural_types.rs`. -/
def OpeningToken.get_closing_token : OpeningToken → ClosingToken
  | OpeningToken.OpenBrace => ClosingToken.CloseBrace
  | OpeningToken.OpenBracket => ClosingToken.CloseBracket
  | OpeningToken.OpenKey => ClosingToken.CloseKey
  | OpeningToken.OpenStringData => ClosingToken.CloseStringData

/-- `ClosingToken::get_char`, from `parser/structural_types.rs`. -/
def ClosingToken.get_char : ClosingToken → Char
  | ClosingToken.CloseBrace => '}'
  | ClosingToken.CloseBracket => ']'
  | ClosingToken.CloseKey => '"'
  | ClosingToken.CloseStringData => '"'

/-- Composition of the two conversions: the closing marker a token pops, when
it is a closing structural token. -/
def tokenClosing (t : Token) : Option ClosingToken :=
  (structuralTokenOfToken t).bind closingOfStructural

/-- `modify_stack`, from `parser/modify_stack.rs`. Returns the stack after
the call together with the result; on a mismatched pop the popped marker is
pushed back, so the stack is unchanged. -/
def modify_stack (stack : List ClosingToken) (token : Token) :
    List ClosingToken × Except TokenProcessingError Unit :=
  match structuralTokenOfToken token with
  | some structural_token =>
    match openingOfStructural structural_token with
    | some opening_token => (opening_token.get_closing_token :: stack, Except.ok ())
    | none =>
      match closingOfStructural structural_token with
      | some closing_token =>
        match stack with
        | current_level_token :: rest =>
          if closing_token = current_level_token then (rest, Except.ok ())
          else (current_level_token :: rest,
                Except.error TokenProcessingError.CorruptedStackMismatchedTokens)
        | [] => ([], Except.error TokenProcessingError.CorruptedStackEmptyOnClose)
      | none => (stack, Except.error TokenProcessingError.NotAnOpeningOrClosingToken)
  | none => (stack, Except.error TokenProcessingError.NotAStructuralToken)

/-- `JSONState::is_cleanly_closable`, from `parser/state_types.rs`. -/
def is_cleanly_closable : JSONState → Bool
  | JSONState.Pending => true
  | JSONState.Brace BraceState.Empty => true
  | JSONState.Bracket BracketState.Empty => true
  | JSONState.Brace (BraceState.InValue (PrimValue.String StringState.Closed)) => true
  | JSONState.Bracket (BracketState.InValue (PrimValue.String StringState.Closed)) => true
  | JSONState.Brace (BraceState.InValue (PrimValue.String StringState.Open)) => true
  | JSONState.Bracket (BracketState.InValue (PrimValue.String StringState.Open)) => true
  | JSONState.Brace (BraceState.InValue (PrimValue.NonString (NonStringState.Completable _))) =>
      true
  | JSONState.Bracket (BracketState.InValue (PrimValue.NonString (NonStringState.Completable _))) =>
      true
  | _ => false

/-- `get_balancing_chars`, from `parser/get_balancing_chars.rs`. The Rust
code maps `closing_stack.iter().rev()` (top-to-bottom) through `get_char`;
with the head-is-top list representation that is the list in its own order. -/
def get_balancing_chars (closing_stack : List ClosingToken) (state : JSONState) :
    Except BalancingError String :=
  if is_cleanly_closable state then
    Except.ok (String.mk (closing_stack.map ClosingToken.get_char))
  else
    Except.error BalancingError.NotClosable

/-- `set_string_state_after_escape_in_place`, from `lexer/escape.rs`: rewrite
an `Open` string sub-state to `next`; `none` when the state is not an open
string. -/
def setStringStateAfterEscape (st : JSONState) (next : StringState) : Option JSONState :=
  match st with
  | JSONState.Brace (BraceState.InKey StringState.Open) =>
      some (JSONState.Brace (BraceState.InKey next))
  | JSONState.Brace (BraceState.InValue (PrimValue.String StringState.Open)) =>
      some (JSONState.Brace (BraceState.InValue (PrimValue.String next)))
  | JSONState.Bracket (BracketState.InValue (PrimValue.String StringState.Open)) =>
      some (JSONState.Bracket (BracketState.InValue (PrimValue.String next)))
  | _ => none

/-- `set_string_state_from_escaped_in_place`, from `lexer/escape.rs`. -/
def setStringStateFromEscaped (st : JSONState) (next : StringState) : Option JSONState :=
  match st with
  | JSONState.Brace (BraceState.InKey StringState.Escaped) =>
      some (JSONState.Brace (BraceState.InKey next))
  | JSONState.Brace (BraceState.InValue (PrimValue.String StringState.Escaped)) =>
      some (JSONState.Brace (BraceState.InValue (PrimValue.String next)))
  | JSONState.Bracket (BracketState.InValue (PrimValue.String StringState.Escaped)) =>
      some (JSONState.Bracket (BracketState.InValue (PrimValue.String next)))
  | _ => none

/-- `handle_escape`, from `lexer/escape.rs`: called on a backslash inside a
string; `Open` becomes `Escaped` and the token returned is `OpenStringData`. -/
def handle_escape (current_state : JSONState) :
    JSONState × Except JSONParseError Token :=
  match setStringStateAfterEscape current_state StringState.Escaped with
  | some st2 => (st2, Except.ok Token.OpenStringData)
  | none => (current_state, Except.error JSONParseError.UnexpectedEscape)

/-- The eight single-character escapes accepted after a backslash, from
`lexer/escape.rs` (`SIMPLE_ESCAPES`). -/
def SIMPLE_ESCAPES : List Char := ['"', '\\', '/', 'b', 'f', 'n', 'r', 't']

/-- `handle_escaped_char`, from `lexer/escape.rs`: resolves the character
following a backslash; `u` keeps the state `Escaped`, a simple escape returns
it to `Open`, anything else is a hard error. -/
def handle_escaped_char (escaped : Char) (current_state : JSONState) :
    JSONState × Except JSONParseError Token :=
  if escaped = 'u' then
    match setStringStateFromEscaped current_state StringState.Escaped with
    | some st2 => (st2, Except.ok Token.OpenStringData)
    | none => (current_state, Except.error JSONParseError.UnexpectedEscape)
  else if SIMPLE_ESCAPES.contains escaped then
    match setStringStateFromEscaped current_state StringState.Open with
    | some st2 => (st2, Except.ok Token.OpenStringData)
    | none => (current_state, Except.error JSONParseError.UnexpectedEscape)
  else
    (current_state, Except.error JSONParseError.InvalidCharEncountered)

/-- `parse_quote_char`, from `lexer/quote.rs`. -/
def parse_quote_char (state : JSONState) : JSONState × Except JSONParseError Token :=
  match state with
  | JSONState.Brace BraceState.Empty =>
      (JSONState.Brace (BraceState.InKey StringState.Open), Except.ok Token.OpenKey)
  | JSONState.Brace BraceState.ExpectingKey =>
      (JSONState.Brace (BraceState.InKey StringState.Open), Except.ok Token.OpenKey)
  | JSONState.Brace BraceState.ExpectingValue =>
      (JSONState.Brace (BraceState.InValue (PrimValue.String StringState.Open)),
       Except.ok Token.OpenStringData)
  | JSONState.Bracket BracketState.Empty =>
      (JSONState.Bracket (BracketState.InValue (PrimValue.String StringState.Open)),
       Except.ok Token.OpenStringData)
  | JSONState.Bracket BracketState.ExpectingValue =>
      (JSONState.Bracket (BracketState.InValue (PrimValue.String StringState.Open)),
       Except.ok Token.OpenStringData)
  | JSONState.Brace (BraceState.InKey StringState.Open) =>
      (JSONState.Brace (BraceState.InKey StringState.Closed), Except.ok Token.CloseKey)
  | JSONState.Brace (BraceState.InKey StringState.Escaped) =>
      (JSONState.Brace (BraceState.InKey StringState.Open), Except.ok Token.OpenStringData)
  | JSONState.Brace (BraceState.InKey StringState.Closed) =>
      (state, Except.error JSONParseError.QuoteCharAfterKeyClose)
  | JSONState.Brace (BraceState.InValue (PrimValue.String StringState.Open)) =>
      (JSONState.Brace (BraceState.InValue (PrimValue.String StringState.Closed)),
       Except.ok Token.CloseStringData)
  | JSONState.Brace (BraceState.InValue (PrimValue.String StringState.Escaped)) =>
      (JSONState.Brace (BraceState.InValue (PrimValue.String StringState.Open)),
       Except.ok Token.OpenStringData)
  | JSONState.Brace (BraceState.InValue (PrimValue.String StringState.Closed)) =>
      (state, Except.error JSONParseError.QuoteCharAfterValueClose)
  | JSONState.Bracket (BracketState.InValue (PrimValue.String StringState.Open)) =>
      (JSONState.Bracket (BracketState.InValue (PrimValue.String StringState.Closed)),
       Except.ok Token.CloseStringData)
  | JSONState.Bracket (BracketState.InValue (PrimValue.String StringState.Escaped)) =>
      (JSONState.Bracket (BracketState.InValue (PrimValue.String StringState.Open)),
       Except.ok Token.OpenStringData)
  | JSONState.Bracket (BracketState.InValue (PrimValue.String StringState.Closed)) =>
      (state, Except.error JSONParseError.QuoteCharAfterValueClose)
  | JSONState.Brace (BraceState.InValue (PrimValue.NonString _)) =>
      (state, Except.error JSONParseError.QuoteCharInNonStringData)
  | JSONState.Brace (BraceState.InValue PrimValue.NestedValueCompleted) =>
      (state, Except.error JSONParseError.QuoteCharInNonStringData)
  | JSONState.Bracket (BracketState.InValue (PrimValue.NonString _)) =>
      (state, Except.error JSONParseError.QuoteCharInNonStringData)
  | JSONState.Bracket (BracketState.InValue PrimValue.NestedValueCompleted) =>
      (state, Except.error JSONParseError.QuoteCharInNonStringData)
  | JSONState.Pending =>
      (state, Except.error JSONParseError.UnexpectedQuoteChar)

/-- `parse_comma`, from `lexer/comma.rs`. Note that the source accepts a
separator comma only after a `Closed` string or `Completable` non-string
value; `NestedValueCompleted` falls through to the error arm. -/
def parse_comma (current_state : JSONState) : JSONState × Except JSONParseError Token :=
  match current_state with
  | JSONState.Brace (BraceState.InValue (PrimValue.String StringState.Closed)) =>
      (JSONState.Brace BraceState.ExpectingKey, Except.ok Token.Comma)
  | JSONState.Brace (BraceState.InValue (PrimValue.NonString (NonStringState.Completable _))) =>
      (JSONState.Brace BraceState.ExpectingKey, Except.ok Token.Comma)
  | JSONState.Bracket (BracketState.InValue (PrimValue.String StringState.Closed)) =>
      (JSONState.Bracket BracketState.ExpectingValue, Except.ok Token.Comma)
  | JSONState.Bracket (BracketState.InValue (PrimValue.NonString (NonStringState.Completable _))) =>
      (JSONState.Bracket BracketState.ExpectingValue, Except.ok Token.Comma)
  | JSONState.Brace (BraceState.InKey StringState.Open) =>
      (current_state, Except.ok Token.OpenStringData)
  | JSONState.Brace (BraceState.InValue (PrimValue.String StringState.Open)) =>
      (current_state, Except.ok Token.OpenStringData)
  | JSONState.Bracket (BracketState.InValue (PrimValue.String StringState.Open)) =>
      (current_state, Except.ok Token.OpenStringData)
  | JSONState.Brace (BraceState.InKey StringState.Escaped) =>
      (JSONState.Brace (BraceState.InKey StringState.Open), Except.ok Token.OpenStringData)
  | JSONState.Brace (BraceState.InValue (PrimValue.String StringState.Escaped)) =>
      (JSONState.Brace (BraceState.InValue (PrimValue.String StringState.Open)),
       Except.ok Token.OpenStringData)
  | JSONState.Bracket (BracketState.InValue (PrimValue.String StringState.Escaped)) =>
      (JSONState.Bracket (BracketState.InValue (PrimValue.String StringState.Open)),
       Except.ok Token.OpenStringData)
  | _ => (current_state, Except.error JSONParseError.UnexpectedComma)

/-- `parse_colon`, from `lexer/colon.rs`. The source's escaped-content arm
inside a brace writes `InKey(Open)` for both the in-key and the in-value
patterns; this quirk is reproduced verbatim (the dispatcher resolves escaped
states before ever reaching this handler). -/
def parse_colon (current_state : JSONState) : JSONState × Except JSONParseError Token :=
  match current_state with
  | JSONState.Brace (BraceState.InKey StringState.Closed) =>
      (JSONState.Brace BraceState.ExpectingValue, Except.ok Token.Colon)
  | JSONState.Brace (BraceState.InKey StringState.Open) =>
      (current_state, Except.ok Token.OpenStringData)
  | JSONState.Brace (BraceState.InValue (PrimValue.String StringState.Open)) =>
      (current_state, Except.ok Token.OpenStringData)
  | JSONState.Brace (BraceState.InKey StringState.Escaped) =>
      (JSONState.Brace (BraceState.InKey StringState.Open), Except.ok Token.OpenStringData)
  | JSONState.Brace (BraceState.InValue (PrimValue.String StringState.Escaped)) =>
      (JSONState.Brace (BraceState.InKey StringState.Open), Except.ok Token.OpenStringData)
  | JSONState.Brace _ =>
      (current_state, Except.error JSONParseError.UnexpectedColon)
  | JSONState.Bracket (BracketState.InValue (PrimValue.String StringState.Open)) =>
      (current_state, Except.ok Token.OpenStringData)
  | JSONState.Bracket (BracketState.InValue (PrimValue.String StringState.Escaped)) =>
      (JSONState.Bracket (BracketState.InValue (PrimValue.String StringState.Open)),
       Except.ok Token.OpenStringData)
  | JSONState.Bracket _ =>
      (current_state, Except.error JSONParseError.UnexpectedColon)
  | JSONState.Pending =>
      (current_state, Except.error JSONParseError.UnexpectedColon)

/-- `parse_brace`, from `lexer/brace.rs`. -/
def parse_brace (brace : RecursiveStructureType) (current_state : JSONState) :
    JSONState × Except JSONParseError Token :=
  match brace with
  | RecursiveStructureType.Open =>
    match current_state with
    | JSONState.Pending =>
        (JSONState.Brace BraceState.Empty, Except.ok Token.OpenBrace)
    | JSONState.Brace BraceState.ExpectingValue =>
        (JSONState.Brace BraceState.Empty, Except.ok Token.OpenBrace)
    | JSONState.Bracket BracketState.Empty =>
        (JSONState.Brace BraceState.Empty, Except.ok Token.OpenBrace)
    | JSONState.Bracket BracketState.ExpectingValue =>
        (JSONState.Brace BraceState.Empty, Except.ok Token.OpenBrace)
    | _ => (current_state, Except.error JSONParseError.UnexpectedOpenBrace)
  | RecursiveStructureType.Close =>
    match current_state with
    | JSONState.Brace BraceState.Empty =>
        (JSONState.Brace (BraceState.InValue
            (PrimValue.NonString (NonStringState.Completable ""))),
         Except.ok Token.CloseBrace)
    | JSONState.Brace (BraceState.InValue (PrimValue.String StringState.Closed)) =>
        (JSONState.Brace (BraceState.InValue
            (PrimValue.NonString (NonStringState.Completable ""))),
         Except.ok Token.CloseBrace)
    | JSONState.Brace (BraceState.InValue (PrimValue.NonString (NonStringState.Completable _))) =>
        (JSONState.Brace (BraceState.InValue
            (PrimValue.NonString (NonStringState.Completable ""))),
         Except.ok Token.CloseBrace)
    | _ => (current_state, Except.error JSONParseError.UnexpectedCloseBrace)

/-- `parse_bracket`, from `lexer/bracket.rs`. A valid close-bracket leaves
the lexical state unchanged (the facade's pop-level transition rewrites it). -/
def parse_bracket (brace : RecursiveStructureType) (current_state : JSONState) :
    JSONState × Except JSONParseError Token :=
  match brace with
  | RecursiveStructureType.Open =>
    match current_state with
    | JSONState.Pending =>
        (JSONState.Bracket BracketState.Empty, Except.ok Token.OpenBracket)
    | JSONState.Brace BraceState.ExpectingValue =>
        (JSONState.Bracket BracketState.Empty, Except.ok Token.OpenBracket)
    | JSONState.Bracket BracketState.ExpectingValue =>
        (JSONState.Bracket BracketState.Empty, Except.ok Token.OpenBracket)
    | _ => (current_state, Except.error JSONParseError.UnexpectedOpenBracket)
  | RecursiveStructureType.Close =>
    match current_state with
    | JSONState.Bracket BracketState.Empty =>
        (current_state, Except.ok Token.CloseBracket)
    | JSONState.Bracket (BracketState.InValue (PrimValue.String StringState.Closed)) =>
        (current_state, Except.ok Token.CloseBracket)
    | JSONState.Bracket
        (BracketState.InValue (PrimValue.NonString (NonStringState.Completable _))) =>
        (current_state, Except.ok Token.CloseBracket)
    | _ => (current_state, Except.error JSONParseError.UnexpectedCloseBracket)

/-- `is_string_data`, from `lexer/string_data.rs`. -/
def is_string_data : JSONState → Bool
  | JSONState.Brace (BraceState.InKey StringState.Open) => true
  | JSONState.Brace (BraceState.InKey StringState.Escaped) => true
  | JSONState.Brace (BraceState.InValue (PrimValue.String StringState.Open)) => true
  | JSONState.Brace (BraceState.InValue (PrimValue.String StringState.Escaped)) => true
  | JSONState.Bracket (BracketState.InValue (PrimValue.String StringState.Open)) => true
  | JSONState.Bracket (BracketState.InValue (PrimValue.String StringState.Escaped)) => true
  | _ => false

/-- `parse_string_data`, from `lexer/string_data.rs`. -/
def parse_string_data (state : JSONState) : JSONState × Except JSONParseError Token :=
  match state with
  | JSONState.Brace (BraceState.InKey StringState.Open) =>
      (state, Except.ok Token.StringContent)
  | JSONState.Brace (BraceState.InValue (PrimValue.String StringState.Open)) =>
      (state, Except.ok Token.StringContent)
  | JSONState.Bracket (BracketState.InValue (PrimValue.String StringState.Open)) =>
      (state, Except.ok Token.StringContent)
  | JSONState.Brace (BraceState.InKey StringState.Escaped) =>
      (JSONState.Brace (BraceState.InKey StringState.Open), Except.ok Token.StringContent)
  | JSONState.Brace (BraceState.InValue (PrimValue.String StringState.Escaped)) =>
      (JSONState.Brace (BraceState.InValue (PrimValue.String StringState.Open)),
       Except.ok Token.StringContent)
  | JSONState.Bracket (BracketState.InValue (PrimValue.String StringState.Escaped)) =>
      (JSONState.Bracket (BracketState.InValue (PrimValue.String StringState.Open)),
       Except.ok Token.StringContent)
  | _ =>
      (state, Except.error (JSONParseError.TokenParseErrorMisc
        "Unexpected character outside of an open string"))

/-- `is_non_string_start`, from `lexer/non_string_data.rs`. -/
def is_non_string_start (c : Char) : Bool :=
  c.isDigit || c = '-' || c = 'n' || c = 't' || c = 'f'

/-- `is_non_string_data`, from `lexer/non_string_data.rs`. -/
def is_non_string_data (c : Char) : JSONState → Bool
  | JSONState.Brace BraceState.ExpectingValue => is_non_string_start c
  | JSONState.Bracket BracketState.Empty => is_non_string_start c
  | JSONState.Bracket BracketState.ExpectingValue => is_non_string_start c
  | JSONState.Brace (BraceState.InValue (PrimValue.NonString _)) => true
  | JSONState.Bracket (BracketState.InValue (PrimValue.NonString _)) => true
  | _ => false

/-- Oracle verdicts, from `is_valid_non_string_data.rs`
(`CompletionCheckValues`). -/
inductive CompletionCheckValues where
  | Complete
  | Incomplete
deriving DecidableEq, Repr

/-- The three keyword literals, from `is_valid_non_string_data.rs`
(`LITERALS`). -/
def LITERALS : List String := ["true", "false", "null"]

/-- Strip one leading `+` or `-` sign, as Rust's float parser does. -/
def stripSign : List Char → List Char
  | '+' :: rest => rest
  | '-' :: rest => rest
  | s => s

/-- Optional exponent part of Rust's float grammar: empty, or `e`/`E`, an
optional sign, and at least one digit reaching the end of the input. -/
def expPartOk : List Char → Bool
  | [] => true
  | e :: r =>
    (e = 'e' || e = 'E')
      && (let r2 := match r with
                    | '+' :: t => t
                    | '-' :: t => t
                    | t => t
          decide (r2 ≠ []) && r2.all Char.isDigit)

/-- Mantissa-and-exponent part of Rust's float grammar: digits, an optional
`.` with further digits, then an optional exponent; at least one digit must
occur in the mantissa. -/
def decimalTailOk (s : List Char) : Bool :=
  let intPart := s.takeWhile Char.isDigit
  let rest1 := s.dropWhile Char.isDigit
  match rest1 with
  | '.' :: r2 =>
      (decide (intPart ≠ []) || decide (r2.takeWhile Char.isDigit ≠ []))
        && expPartOk (r2.dropWhile Char.isDigit)
  | r => decide (intPart ≠ []) && expPartOk r

/-- Embedding of `str::parse::<f64>().is_ok()`: the grammar accepted by
Rust's `f64: FromStr` — an optional sign followed by `inf`, `infinity` or
`nan` (ASCII case-insensitive) or by a decimal mantissa with optional
exponent. -/
def rustF64Parses (s : List Char) : Bool :=
  let body := stripSign s
  let lower := body.map Char.toLower
  lower = "inf".data || lower = "infinity".data || lower = "nan".data || decimalTailOk body

/-- Last character of a list compared against `c` (`str::ends_with(char)`
on a nonempty string). -/
def endsWithChar (s : List Char) (c : Char) : Bool :=
  s.getLast? = some c

/-- Core of `is_non_valid_non_string_data`, from
`is_valid_non_string_data.rs`, operating on the already-concatenated
`new_value` character list. `strip_suffix(last_char)` with the actual last
character is `dropLast`, and `strip_suffix(['e', 'E'])` after an
`ends_with('e') || ends_with('E')` guard is `dropLast` as well. -/
def oracleCore (new_value : List Char) :
    Except JSONParseError CompletionCheckValues :=
  let first_char := new_value.headD (Char.ofNat 0)
  if first_char = 't' || first_char = 'f' || first_char = 'n' then
    if LITERALS.any (fun lit => lit.data = new_value) then
      Except.ok CompletionCheckValues.Complete
    else if LITERALS.any (fun lit => new_value.isPrefixOf lit.data) then
      Except.ok CompletionCheckValues.Incomplete
    else
      Except.error JSONParseError.InvalidCharInLiteral
  else if first_char.isDigit || first_char = '-' then
    if new_value = ['-'] then Except.ok CompletionCheckValues.Incomplete
    else if rustF64Parses new_value then
      if endsWithChar new_value '.' then Except.ok CompletionCheckValues.Incomplete
      else Except.ok CompletionCheckValues.Complete
    else
      let last_char := new_value.getLastD (Char.ofNat 0)
      let pre := new_value.dropLast
      if rustF64Parses pre && (last_char = 'e' || last_char = 'E')
          && !(pre.any (fun x => x = 'e' || x = 'E')) then
        Except.ok CompletionCheckValues.Incomplete
      else if (endsWithChar pre 'e' || endsWithChar pre 'E')
          && (last_char = '+' || last_char = '-')
          && rustF64Parses pre.dropLast then
        Except.ok CompletionCheckValues.Incomplete
      else
        Except.error JSONParseError.InvalidCharInNumber
  else
    Except.error JSONParseError.InvalidNonStringDataFirstChar

/-- `is_non_valid_non_string_data`, from `is_valid_non_string_data.rs`:
builds `new_value = buffer · c` and analyses it. -/
def is_non_valid_non_string_data (c : Char) (non_string_data_buffer : String) :
    Except JSONParseError CompletionCheckValues :=
  oracleCore (non_string_data_buffer.data ++ [c])

/-- `parse_non_string_data`, from `lexer/non_string_data.rs`. In the
continue case the oracle is consulted with the old buffer, the character is
appended afterwards, and the sub-state is `Completable` exactly on a
`Complete` verdict; the oracle's error (if any) propagates while the state
keeps the appended buffer. -/
def parse_non_string_data (c : Char) (state : JSONState) :
    JSONState × Except JSONParseError Token :=
  match state with
  | JSONState.Brace BraceState.ExpectingValue =>
      (JSONState.Brace (BraceState.InValue (PrimValue.NonString
          (if c = '-' then NonStringState.NonCompletable c.toString
           else NonStringState.Completable c.toString))),
       Except.ok Token.NonStringData)
  | JSONState.Bracket BracketState.Empty =>
      (JSONState.Bracket (BracketState.InValue (PrimValue.NonString
          (if c = '-' then NonStringState.NonCompletable c.toString
           else NonStringState.Completable c.toString))),
       Except.ok Token.NonStringData)
  | JSONState.Bracket BracketState.ExpectingValue =>
      (JSONState.Bracket (BracketState.InValue (PrimValue.NonString
          (if c = '-' then NonStringState.NonCompletable c.toString
           else NonStringState.Completable c.toString))),
       Except.ok Token.NonStringData)
  | JSONState.Brace (BraceState.InValue (PrimValue.NonString ns)) =>
      let buffer := match ns with
                    | NonStringState.Completable s => s
                    | NonStringState.NonCompletable s => s
      let status := is_non_valid_non_string_data c buffer
      let buffer2 := buffer.push c
      let ns2 := match status with
                 | Except.ok CompletionCheckValues.Complete =>
                     NonStringState.Completable buffer2
                 | _ => NonStringState.NonCompletable buffer2
      (JSONState.Brace (BraceState.InValue (PrimValue.NonString ns2)),
       status.map (fun _ => Token.NonStringData))
  | JSONState.Bracket (BracketState.InValue (PrimValue.NonString ns)) =>
      let buffer := match ns with
                    | NonStringState.Completable s => s
                    | NonStringState.NonCompletable s => s
      let status := is_non_valid_non_string_data c buffer
      let buffer2 := buffer.push c
      let ns2 := match status with
                 | Except.ok CompletionCheckValues.Complete =>
                     NonStringState.Completable buffer2
                 | _ => NonStringState.NonCompletable buffer2
      (JSONState.Bracket (BracketState.InValue (PrimValue.NonString ns2)),
       status.map (fun _ => Token.NonStringData))
  | _ => (state, Except.error JSONParseError.UnexpectedCharInNonStringData)

/-- Step 0 guard of the dispatcher, from `lexer/dispatcher.rs`: the states
whose string sub-state is `Escaped`. -/
def isEscapedStringState : JSONState → Bool
  | JSONState.Brace (BraceState.InKey StringState.Escaped) => true
  | JSONState.Brace (BraceState.InValue (PrimValue.String StringState.Escaped)) => true
  | JSONState.Bracket (BracketState.InValue (PrimValue.String StringState.Escaped)) => true
  | _ => false

/-- Step 2 guard of the dispatcher, from `lexer/dispatcher.rs`
(`in_completable`): the last value is completable, so `,` `}` `]` must be
routed to the structural handlers before the data lexers. -/
def in_completable_state : JSONState → Bool
  | JSONState.Brace (BraceState.InValue (PrimValue.String StringState.Closed)) => true
  | JSONState.Brace (BraceState.InValue (PrimValue.NonString (NonStringState.Completable _))) =>
      true
  | JSONState.Brace (BraceState.InValue PrimValue.NestedValueCompleted) => true
  | JSONState.Bracket (BracketState.InValue (PrimValue.String StringState.Closed)) => true
  | JSONState.Bracket (BracketState.InValue (PrimValue.NonString (NonStringState.Completable _))) =>
      true
  | JSONState.Bracket (BracketState.InValue PrimValue.NestedValueCompleted) => true
  | _ => false

/-- Steps 3 and 4 of the dispatcher, from `lexer/dispatcher.rs`: data
lexers, then the remaining structural characters, whitespace, and the
invalid-character error. -/
def parse_char_tail (c : Char) (st : JSONState) : JSONState × Except JSONParseError Token :=
  if is_string_data st then parse_string_data st
  else if is_non_string_data c st then parse_non_string_data c st
  else if c = '{' then parse_brace RecursiveStructureType.Open st
  else if c = '}' then parse_brace RecursiveStructureType.Close st
  else if c = '[' then parse_bracket RecursiveStructureType.Open st
  else if c = ']' then parse_bracket RecursiveStructureType.Close st
  else if c = ':' then parse_colon st
  else if c = ',' then parse_comma st
  else if c = ' ' || c = '\t' || c = '\n' || c = '\r' then (st, Except.ok Token.Whitespace)
  else (st, Except.error JSONParseError.InvalidCharEncountered)

/-- `parse_char`, from `lexer/dispatcher.rs`: resolve a pending escape
first, then backslash and quote, then delimiter preemption after a
completable value, then the data lexers and remaining structural handling. -/
def parse_char (c : Char) (st : JSONState) : JSONState × Except JSONParseError Token :=
  if isEscapedStringState st then handle_escaped_char c st
  else if c = '\\' then handle_escape st
  else if c = '"' then parse_quote_char st
  else if in_completable_state st then
    if c = ',' then parse_comma st
    else if c = '}' then parse_brace RecursiveStructureType.Close st
    else if c = ']' then parse_bracket RecursiveStructureType.Close st
    else parse_char_tail c st
  else parse_char_tail c st

/-- The engine, from `parser/json_balancer.rs` (`JSONBalancer`). -/
structure JSONBalancer where
  closing_stack : List ClosingToken
  state : JSONState
  is_corrupted : Bool
deriving DecidableEq, Repr

/-- `JSONBalancer::new` / `Default`, from `parser/json_balancer.rs`. -/
def JSONBalancer.new : JSONBalancer :=
  { closing_stack := [], state := JSONState.Pending, is_corrupted := false }

/-- Modelled from the spec: `PopLevelToken::try_from(&Token)` succeeds
exactly on the pop-level closes `CloseBrace` and `CloseBracket` (section 4.5;
the declaration is absent from the snapshot of `parser/structural_types.rs`,
and the balancer's own `pop_state_tests` treat `Comma` as not pop-level). -/
def isPopLevelToken : Token → Bool
  | Token.CloseBrace => true
  | Token.CloseBracket => true
  | _ => false

/-- `handle_pop_state_transition`, from `parser/json_balancer.rs`: after a
pop-level token, rewrite the state from the new stack top. The source writes
`Completable(String::new())` for a completed nested value and leaves the
state alone when the top is a string marker. -/
def handle_pop_state_transition (b : JSONBalancer) (token : Token) : JSONBalancer :=
  if isPopLevelToken token then
    match b.closing_stack.head? with
    | some ClosingToken.CloseBrace =>
        { b with state := JSONState.Brace (BraceState.InValue
            (PrimValue.NonString (NonStringState.Completable ""))) }
    | some ClosingToken.CloseBracket =>
        { b with state := JSONState.Bracket (BracketState.InValue
            (PrimValue.NonString (NonStringState.Completable ""))) }
    | none => { b with state := JSONState.Pending }
    | some _ => b
  else b

/-- One iteration of the character loop of `add_delta`, from
`parser/json_balancer.rs`: lex the character, update the stack, corrupt on
any lexer error or on any stack error other than `NotAStructuralToken`, and
apply the pop-level transition on success. -/
def stepChar (b : JSONBalancer) (c : Char) : JSONBalancer × Except Error Unit :=
  match parse_char c b.state with
  | (st2, Except.ok token) =>
    match modify_stack b.closing_stack token with
    | (stk2, Except.error TokenProcessingError.NotAStructuralToken) =>
        ({ b with closing_stack := stk2, state := st2 }, Except.ok ())
    | (stk2, Except.error _) =>
        ({ closing_stack := stk2, state := st2, is_corrupted := true },
         Except.error Error.Corrupted)
    | (stk2, Except.ok _) =>
        (handle_pop_state_transition
          { b with closing_stack := stk2, state := st2 } token,
         Except.ok ())
  | (st2, Except.error _) =>
      ({ closing_stack := b.closing_stack, state := st2, is_corrupted := true },
       Except.error Error.Corrupted)

/-- The character loop of `add_delta`: process characters until one corrupts
the engine, in which case the rest of the delta is dropped. -/
def addDeltaChars : JSONBalancer → List Char → JSONBalancer × Except Error Unit
  | b, [] => (b, Except.ok ())
  | b, c :: cs =>
    match stepChar b c with
    | (b2, Except.ok _) => addDeltaChars b2 cs
    | (b2, Except.error e) => (b2, Except.error e)

/-- `add_delta`, from `parser/json_balancer.rs`: short-circuit when already
corrupted, otherwise run the character loop. -/
def add_delta (b : JSONBalancer) (delta : String) : JSONBalancer × Except Error Unit :=
  if b.is_corrupted then (b, Except.error Error.Corrupted)
  else addDeltaChars b delta.data

/-- `get_completion`, from `parser/json_balancer.rs`, with the
`BalancingError → Error` conversion of `parser/public_error.rs` inlined in
the error arm. -/
def get_completion (b : JSONBalancer) : Except Error String :=
  if b.is_corrupted then Except.error Error.Corrupted
  else
    match get_balancing_chars b.closing_stack b.state with
    | Except.ok s => Except.ok s
    | Except.error BalancingError.NotClosable => Except.error Error.NotClosable
    | Except.error BalancingError.Corrupted => Except.error Error.Corrupted

/-- `process_delta`, from `parser/json_balancer.rs`: `add_delta` then
`get_completion`, propagating the delta error if any. -/
def process_delta (b : JSONBalancer) (delta : String) : JSONBalancer × Except Error String :=
  match add_delta b delta with
  | (b2, Except.ok _) => (b2, get_completion b2)
  | (b2, Except.error e) => (b2, Except.error e)

/-- ASCII whitespace accepted between JSON tokens. -/
def refIsWs (c : Char) : Bool :=
  c = ' ' || c = '\t' || c = '\n' || c = '\r'

/-- Skip insignificant whitespace. -/
def refSkipWs (s : List Char) : List Char :=
  s.dropWhile refIsWs

/-- Hexadecimal digit, for `\uXXXX` escapes of the reference grammar. -/
def refIsHexDigit (c : Char) : Bool :=
  c.isDigit || ('a' ≤ c && c ≤ 'f') || ('A' ≤ c && c ≤ 'F')

/-- Modelled from the spec: reference JSON string body (after the opening
quote) of the "reference parser" in the round-trip property of section 8,
following RFC 8259: unescaped characters above `0x1F`, the eight simple
escapes, and `\u` with four hex digits; returns the input remaining after
the closing quote. The fuel only needs to exceed the input length. -/
def refStringRest : Nat → List Char → Option (List Char)
  | 0, _ => none
  | _ + 1, [] => none
  | fuel + 1, c :: rest =>
    if c = '"' then some rest
    else if c = '\\' then
      match rest with
      | [] => none
      | e :: rest2 =>
        if e = 'u' then
          match rest2 with
          | h1 :: h2 :: h3 :: h4 :: rest3 =>
            if refIsHexDigit h1 && refIsHexDigit h2 && refIsHexDigit h3
                && refIsHexDigit h4 then
              refStringRest fuel rest3
            else none
          | _ => none
        else if e = '"' || e = '\\' || e = '/' || e = 'b' || e = 'f' || e = 'n'
            || e = 'r' || e = 't' then
          refStringRest fuel rest2
        else none
    else if c.toNat < 32 then none
    else refStringRest fuel rest

/-- Modelled from the spec: reference JSON number grammar (RFC 8259):
`-? int frac? exp?` with `int = 0 | [1-9][0-9]*`, `frac = . [0-9]+`,
`exp = [eE] [+-]? [0-9]+`; returns the remaining input after the number. -/
def refNumberRest (s : List Char) : Option (List Char) :=
  let s1 := match s with
            | '-' :: t => t
            | t => t
  let afterInt : Option (List Char) :=
    match s1 with
    | '0' :: t => some t
    | c :: t => if c.isDigit then some (t.dropWhile Char.isDigit) else none
    | [] => none
  match afterInt with
  | none => none
  | some r1 =>
    let afterFrac : Option (List Char) :=
      match r1 with
      | '.' :: t =>
        if (t.takeWhile Char.isDigit).isEmpty then none
        else some (t.dropWhile Char.isDigit)
      | _ => some r1
    match afterFrac with
    | none => none
    | some r2 =>
      match r2 with
      | e :: t =>
        if e = 'e' || e = 'E' then
          let t2 := match t with
                    | '+' :: u => u
                    | '-' :: u => u
                    | u => u
          if (t2.takeWhile Char.isDigit).isEmpty then none
          else some (t2.dropWhile Char.isDigit)
        else some r2
      | [] => some r2

/-- Expect a fixed literal tail, for `true` / `false` / `null`. -/
def refLit (lit : List Char) (s : List Char) : Option (List Char) :=
  if lit.isPrefixOf s then some (s.drop lit.length) else none

mutual

/-- Modelled from the spec: reference JSON value parser (the "reference
parser" of section 8's round-trip property), RFC 8259 grammar; consumes one
value after optional whitespace and returns the remaining input. -/
def refValue : Nat → List Char → Option (List Char)
  | 0, _ => none
  | fuel + 1, s =>
    match refSkipWs s with
    | [] => none
    | c :: rest =>
      if c = '"' then refStringRest (rest.length + 1) rest
      else if c = '{' then refObjectFirst fuel rest
      else if c = '[' then refArrayFirst fuel rest
      else if c = 't' then refLit ['r', 'u', 'e'] rest
      else if c = 'f' then refLit ['a', 'l', 's', 'e'] rest
      else if c = 'n' then refLit ['u', 'l', 'l'] rest
      else refNumberRest (c :: rest)

/-- Object body right after `{`: either `}` or the first member's key. -/
def refObjectFirst : Nat → List Char → Option (List Char)
  | 0, _ => none
  | fuel + 1, s =>
    match refSkipWs s with
    | '}' :: rest => some rest
    | '"' :: rest =>
      match refStringRest (rest.length + 1) rest with
      | some rest2 => refMemberTail fuel rest2
      | none => none
    | _ => none

/-- After a member key: `:`, a value, then the object continuation. -/
def refMemberTail : Nat → List Char → Option (List Char)
  | 0, _ => none
  | fuel + 1, s =>
    match refSkipWs s with
    | ':' :: rest =>
      match refValue fuel rest with
      | some rest2 => refObjectNext fuel rest2
      | none => none
    | _ => none

/-- After a member value: `}` ends the object, `,` starts the next member. -/
def refObjectNext : Nat → List Char → Option (List Char)
  | 0, _ => none
  | fuel + 1, s =>
    match refSkipWs s with
    | '}' :: rest => some rest
    | ',' :: rest =>
      match refSkipWs rest with
      | '"' :: rest2 =>
        match refStringRest (rest2.length + 1) rest2 with
        | some rest3 => refMemberTail fuel rest3
        | none => none
      | _ => none
    | _ => none

/-- Array body right after `[`: either `]` or the first element. -/
def refArrayFirst : Nat → List Char → Option (List Char)
  | 0, _ => none
  | fuel + 1, s =>
    match refSkipWs s with
    | ']' :: rest => some rest
    | s2 =>
      match refValue fuel s2 with
      | some rest2 => refArrayNext fuel rest2
      | none => none

/-- After an array element: `]` ends the array, `,` starts the next one. -/
def refArrayNext : Nat → List Char → Option (List Char)
  | 0, _ => none
  | fuel + 1, s =>
    match refSkipWs s with
    | ']' :: rest => some rest
    | ',' :: rest =>
      match refValue fuel rest with
      | some rest2 => refArrayNext fuel rest2
      | none => none
    | _ => none

end

/-- Modelled from the spec: a string is a valid complete JSON document when
the reference parser consumes one value and only whitespace remains. The
fuel bound `2 * length + 2` dominates the recursion depth. -/
def refJsonDocument (s : String) : Bool :=
  match refValue (2 * s.data.length + 2) s.data with
  | some rest => (refSkipWs rest).isEmpty
  | none => false

/-- Modelled from the spec: a string is a complete valid JSON number when
the reference number grammar consumes all of it. -/
def refJsonNumber (s : String) : Bool :=
  match refNumberRest s.data with
  | some [] => true
  | _ => false

/-- The cleanly-closable states as enumerated by the completion-synthesizer
claim, minus the `NestedValueCompleted` state (the code leaves that variant
outside `is_cleanly_closable`; the balancer represents a just-closed nested
value as `Completable("")`, which is in the list): `Pending`, an `Empty`
object or array, a string value `Open` or `Closed`, and a `Completable`
non-string value. -/
def closableBySpec (st : JSONState) : Bool :=
  st = JSONState.Pending
  || st = JSONState.Brace BraceState.Empty
  || st = JSONState.Bracket BracketState.Empty
  || (match st with
      | JSONState.Brace (BraceState.InValue (PrimValue.String ss)) =>
          ss = StringState.Open || ss = StringState.Closed
      | JSONState.Bracket (BracketState.InValue (PrimValue.String ss)) =>
          ss = StringState.Open || ss = StringState.Closed
      | JSONState.Brace (BraceState.InValue (PrimValue.NonString (NonStringState.Completable _))) =>
          true
      | JSONState.Bracket
          (BracketState.InValue (PrimValue.NonString (NonStringState.Completable _))) =>
          true
      | _ => false)

/-- The condition under which the oracle claim (as amended) states a
`Complete` verdict for the joined buffer `s`: a keyword literal, or a
numeral (first character a digit or `-`) other than a bare `-` that Rust's
float grammar accepts and that does not end with `.`. -/
def oracleCompleteSpec (s : List Char) : Prop :=
  (∃ lit ∈ LITERALS, lit.data = s) ∨
  (((s.headD (Char.ofNat 0)).isDigit = true ∨ s.headD (Char.ofNat 0) = '-')
    ∧ s ≠ ['-'] ∧ rustF64Parses s = true ∧ endsWithChar s '.' = false)

/-- The condition under which the oracle claim (as amended) states an
`Incomplete` verdict for the joined buffer `s`: a strict prefix of a keyword
literal, or a numeral head that is a bare `-`, a float-accepted string ending
in `.`, a float-accepted numeral followed by its first exponent letter, or an
exponent letter followed by a sign. -/
def oracleIncompleteSpec (s : List Char) : Prop :=
  ((s.headD (Char.ofNat 0) = 't' ∨ s.headD (Char.ofNat 0) = 'f'
      ∨ s.headD (Char.ofNat 0) = 'n')
    ∧ (¬ ∃ lit ∈ LITERALS, lit.data = s)
    ∧ (∃ lit ∈ LITERALS, s.isPrefixOf lit.data)) ∨
  (((s.headD (Char.ofNat 0)).isDigit = true ∨ s.headD (Char.ofNat 0) = '-')
    ∧ (s = ['-']
       ∨ (rustF64Parses s = true ∧ endsWithChar s '.' = true)
       ∨ (rustF64Parses s = false ∧ rustF64Parses s.dropLast = true
          ∧ (s.getLast? = some 'e' ∨ s.getLast? = some 'E')
          ∧ ¬ ∃ x ∈ s.dropLast, x = 'e' ∨ x = 'E')
       ∨ (rustF64Parses s = false
          ∧ (endsWithChar s.dropLast 'e' = true ∨ endsWithChar s.dropLast 'E' = true)
          ∧ (s.getLast? = some '+' ∨ s.getLast? = some '-')
          ∧ rustF64Parses s.dropLast.dropLast = true)))

theorem handle_pop_is_corrupted (b : JSONBalancer) (t : Token) :
    (handle_pop_state_transition b t).is_corrupted = b.is_corrupted := by
  unfold handle_pop_state_transition
  split
  · split <;> rfl
  · rfl

theorem handle_pop_closing_stack (b : JSONBalancer) (t : Token) :
    (handle_pop_state_transition b t).closing_stack = b.closing_stack := by
  unfold handle_pop_state_transition
  split
  · split <;> rfl
  · rfl

theorem stepChar_ok_flag (b : JSONBalancer) (c : Char)
    (h : (stepChar b c).2 = Except.ok ()) :
    (stepChar b c).1.is_corrupted = b.is_corrupted := by
  unfold stepChar at h ⊢
  rcases hp : parse_char c b.state with ⟨st2, r⟩
  rw [hp] at h
  cases r with
  | error pe =>
    try dsimp only at h
    simp at h
  | ok tok =>
    try dsimp only at h ⊢
    rcases hm : modify_stack b.closing_stack tok with ⟨stk2, r2⟩
    rw [hm] at h
    cases r2 with
    | ok u =>
      try dsimp only at h ⊢
      simp [handle_pop_is_corrupted]
    | error te =>
      cases te <;> simp_all

theorem stepChar_error_flag (b : JSONBalancer) (c : Char) (e : Error)
    (h : (stepChar b c).2 = Except.error e) :
    e = Error.Corrupted ∧ (stepChar b c).1.is_corrupted = true := by
  unfold stepChar at h ⊢
  rcases hp : parse_char c b.state with ⟨st2, r⟩
  rw [hp] at h
  cases r with
  | error pe =>
    try dsimp only at h ⊢
    simp_all
  | ok tok =>
    try dsimp only at h ⊢
    rcases hm : modify_stack b.closing_stack tok with ⟨stk2, r2⟩
    rw [hm] at h
    cases r2 with
    | ok u =>
      try dsimp only at h ⊢
      simp_all
    | error te =>
      cases te <;> simp_all

theorem addDeltaChars_error (b : JSONBalancer) (cs : List Char) (e : Error)
    (h : (addDeltaChars b cs).2 = Except.error e) :
    e = Error.Corrupted ∧ (addDeltaChars b cs).1.is_corrupted = true := by
  induction cs generalizing b with
  | nil => simp [addDeltaChars] at h
  | cons c cs ih =>
    rw [addDeltaChars] at h ⊢
    rcases hs : stepChar b c with ⟨b2, r⟩
    rw [hs] at h
    cases r with
    | ok u =>
      try dsimp only at h ⊢
      exact ih b2 h
    | error e2 =>
      simp only at h
      cases h
      have h2 : (stepChar b c).2 = Except.error e := by rw [hs]
      have := stepChar_error_flag b c e h2
      rw [hs] at this
      simpa using this

theorem addDeltaChars_ok_flag (b : JSONBalancer) (cs : List Char)
    (h : (addDeltaChars b cs).2 = Except.ok ()) :
    (addDeltaChars b cs).1.is_corrupted = b.is_corrupted := by
  induction cs generalizing b with
  | nil => simp [addDeltaChars]
  | cons c cs ih =>
    rw [addDeltaChars] at h ⊢
    rcases hs : stepChar b c with ⟨b2, r⟩
    rw [hs] at h
    cases r with
    | ok u =>
      try dsimp only at h ⊢
      have h2 : (stepChar b c).2 = Except.ok () := by rw [hs]
      have h3 := stepChar_ok_flag b c h2
      rw [hs] at h3
      rw [ih b2 h, h3]
    | error e2 =>
      try dsimp only at h
      simp at h

theorem addDeltaChars_append (b : JSONBalancer) (xs ys : List Char) :
    addDeltaChars b (xs ++ ys) =
      match addDeltaChars b xs with
      | (b1, Except.ok _) => addDeltaChars b1 ys
      | (b1, Except.error e1) => (b1, Except.error e1) := by
  induction xs generalizing b with
  | nil => simp [addDeltaChars]
  | cons c cs ih =>
    rw [List.cons_append, addDeltaChars, addDeltaChars]
    rcases hs : stepChar b c with ⟨b2, r⟩
    cases r with
    | ok u => exact ih b2
    | error e1 => rfl

theorem get_completion_corrupted_flag (b : JSONBalancer)
    (h : get_completion b = Except.error Error.Corrupted) :
    b.is_corrupted = true := by
  by_contra hb
  rw [Bool.not_eq_true] at hb
  unfold get_completion get_balancing_chars at h
  rw [hb] at h
  simp only [Bool.false_eq_true, if_false] at h
  by_cases hc : is_cleanly_closable b.state = true
  · rw [if_pos hc] at h
    simp at h
  · rw [if_neg hc] at h
    simp at h

/-- Claim C10: for every engine value, `process_delta("")` leaves the
lexical state, the container stack and the corruption flag unchanged, and
returns exactly the result that `completion()` alone would return on that
engine. -/
theorem process_delta_empty_frame (b : JSONBalancer) :
    process_delta b "" = (b, get_completion b) := by
  unfold process_delta add_delta
  by_cases h : b.is_corrupted = true
  · rw [if_pos h]
    try dsimp only
    unfold get_completion
    rw [if_pos h]
  · rw [if_neg h]
    rfl

theorem process_delta_of_corrupted (b : JSONBalancer) (d : String)
    (h : b.is_corrupted = true) :
    process_delta b d = (b, Except.error Error.Corrupted) := by
  unfold process_delta add_delta
  rw [if_pos h]

theorem get_completion_of_corrupted (b : JSONBalancer)
    (h : b.is_corrupted = true) :
    get_completion b = Except.error Error.Corrupted := by
  unfold get_completion
  rw [if_pos h]

/-- Claim C2: once any call reports `Corrupted` the corruption flag is set;
`completion()` reports `Corrupted` only with the flag set; and with the flag
set, every `process_delta` call (for any fragment) returns `Corrupted` and
leaves the engine unchanged, and `completion()` reports `Corrupted` — so the
flag is never cleared and corruption is sticky. -/
theorem corruption_is_sticky (b : JSONBalancer) (d : String) :
    ((process_delta b d).2 = Except.error Error.Corrupted →
      (process_delta b d).1.is_corrupted = true)
    ∧ (get_completion b = Except.error Error.Corrupted → b.is_corrupted = true)
    ∧ (b.is_corrupted = true →
        process_delta b d = (b, Except.error Error.Corrupted)
        ∧ get_completion b = Except.error Error.Corrupted) := by
  refine ⟨?_, get_completion_corrupted_flag b, ?_⟩
  · intro h
    unfold process_delta add_delta at h ⊢
    by_cases hb : b.is_corrupted = true
    · rw [if_pos hb] at h ⊢
      try dsimp only at h ⊢
      exact hb
    · rw [if_neg hb] at h ⊢
      rcases ha : addDeltaChars b d.data with ⟨b1, r⟩
      try rw [ha] at h
      cases r with
      | ok u =>
        try dsimp only at h ⊢
        exact get_completion_corrupted_flag b1 h
      | error e1 =>
        try dsimp only at h ⊢
        have h2 : (addDeltaChars b d.data).2 = Except.error e1 := by rw [ha]
        have h3 := addDeltaChars_error b d.data e1 h2
        rw [ha] at h3
        exact h3.2
  · intro h
    exact ⟨process_delta_of_corrupted b d h, get_completion_of_corrupted b h⟩

theorem corruption_is_sticky_witness :
    process_delta
        { closing_stack := [], state := JSONState.Pending, is_corrupted := true } "x"
      = ({ closing_stack := [], state := JSONState.Pending, is_corrupted := true },
         Except.error Error.Corrupted)
    ∧ get_completion
        { closing_stack := [], state := JSONState.Pending, is_corrupted := true }
      = Except.error Error.Corrupted :=
  (corruption_is_sticky
    { closing_stack := [], state := JSONState.Pending, is_corrupted := true } "x").2.2 rfl

/-- Claim C9: for every engine value and all fragments `a`, `b`, processing
`a` and then `b` yields the same final engine and the same final result as
processing the single fragment `a ++ b`; splitting inside a keyword or an
escape sequence therefore cannot change the outcome. -/
theorem process_delta_concat (e : JSONBalancer) (a b : String) :
    process_delta (process_delta e a).1 b = process_delta e (a ++ b) := by
  by_cases hc : e.is_corrupted = true
  · have h1 := process_delta_of_corrupted e a hc
    have h2 := process_delta_of_corrupted e (a ++ b) hc
    have h3 := process_delta_of_corrupted e b hc
    rw [h1]
    try dsimp only
    rw [h3, h2]
  · have hab : addDeltaChars e (a ++ b).data =
        (match addDeltaChars e a.data with
         | (b1, Except.ok _) => addDeltaChars b1 b.data
         | (b1, Except.error e1) => (b1, Except.error e1)) := by
      rw [String.data_append]
      exact addDeltaChars_append e a.data b.data
    rcases ha : addDeltaChars e a.data with ⟨b1, r⟩
    rw [ha] at hab
    cases r with
    | error e1 =>
      have h2 : (addDeltaChars e a.data).2 = Except.error e1 := by rw [ha]
      obtain ⟨he1, hb1⟩ := addDeltaChars_error e a.data e1 h2
      rw [ha] at hb1
      subst he1
      have hpa : process_delta e a = (b1, Except.error Error.Corrupted) := by
        unfold process_delta add_delta
        rw [if_neg hc, ha]
      have hpb : process_delta b1 b = (b1, Except.error Error.Corrupted) :=
        process_delta_of_corrupted b1 b hb1
      have hpab : process_delta e (a ++ b) = (b1, Except.error Error.Corrupted) := by
        unfold process_delta add_delta
        rw [if_neg hc, hab]
      rw [hpa]
      try dsimp only
      rw [hpb, hpab]
    | ok u =>
      cases u
      have h2 : (addDeltaChars e a.data).2 = Except.ok () := by rw [ha]
      have hb1flag := addDeltaChars_ok_flag e a.data h2
      rw [ha] at hb1flag
      have hb1false : ¬ (b1.is_corrupted = true) := by
        rw [hb1flag]
        exact hc
      have hpa : process_delta e a = (b1, get_completion b1) := by
        unfold process_delta add_delta
        rw [if_neg hc, ha]
      have hpab : process_delta e (a ++ b) =
          ((match addDeltaChars b1 b.data with
            | (b2, Except.ok _) => (b2, get_completion b2)
            | (b2, Except.error e2) => (b2, Except.error e2)) :
            JSONBalancer × Except Error String) := by
        unfold process_delta add_delta
        rw [if_neg hc, hab]
      have hpb : process_delta b1 b =
          ((match addDeltaChars b1 b.data with
            | (b2, Except.ok _) => (b2, get_completion b2)
            | (b2, Except.error e2) => (b2, Except.error e2)) :
            JSONBalancer × Except Error String) := by
        unfold process_delta add_delta
        rw [if_neg hb1false]
      rw [hpa]
      try dsimp only
      rw [hpb, hpab]

theorem is_cleanly_closable_eq_spec (st : JSONState) :
    is_cleanly_closable st = closableBySpec st := by
  cases st with
  | Pending => rfl
  | Brace bs =>
    cases bs with
    | Empty => rfl
    | ExpectingKey => rfl
    | ExpectingValue => rfl
    | InKey ss => cases ss <;> rfl
    | InValue v =>
      cases v with
      | String ss => cases ss <;> rfl
      | NonString ns => cases ns <;> rfl
      | NestedValueCompleted => rfl
  | Bracket bs =>
    cases bs with
    | Empty => rfl
    | ExpectingValue => rfl
    | InValue v =>
      cases v with
      | String ss => cases ss <;> rfl
      | NonString ns => cases ns <;> rfl
      | NestedValueCompleted => rfl

/-- Claim C3 (amended): on an uncorrupted engine, `completion()` returns the
stack read top-to-bottom mapped to closing characters exactly when the state
is `Pending`, an `Empty` container, a string value `Open` or `Closed`, or a
`Completable` non-string value, and returns `NotClosable` in every other
state — `NestedValueCompleted` included (the code represents a just-closed
nested value as `Completable("")` instead). -/
theorem completion_characterization (b : JSONBalancer) (h : b.is_corrupted = false) :
    get_completion b =
      (if closableBySpec b.state then
        Except.ok (String.mk (b.closing_stack.map ClosingToken.get_char))
      else Except.error Error.NotClosable) := by
  unfold get_completion get_balancing_chars
  rw [h]
  simp only [Bool.false_eq_true, if_false]
  rw [is_cleanly_closable_eq_spec]
  by_cases hcl : closableBySpec b.state = true
  · rw [if_pos hcl, if_pos hcl]
  · rw [if_neg hcl, if_neg hcl]

theorem completion_characterization_witness :
    get_completion
        { closing_stack := [ClosingToken.CloseBracket],
          state := JSONState.Bracket BracketState.Empty, is_corrupted := false }
      = (if closableBySpec
            (JSONState.Bracket BracketState.Empty) then
          Except.ok (String.mk
            ([ClosingToken.CloseBracket].map ClosingToken.get_char))
        else Except.error Error.NotClosable) :=
  completion_characterization
    { closing_stack := [ClosingToken.CloseBracket],
      state := JSONState.Bracket BracketState.Empty, is_corrupted := false } rfl

/-- Claim C3, counterexample: the claim lists `NestedCompleted` among the
cleanly-closable states, predicting `Ok("")` here (empty stack), but the
engine in state `InValue(NestedValueCompleted)` with the corruption flag
clear reports `NotClosable`. -/
theorem completion_nested_completed_counterexample :
    get_completion
        { closing_stack := [],
          state := JSONState.Brace (BraceState.InValue PrimValue.NestedValueCompleted),
          is_corrupted := false }
      = Except.error Error.NotClosable
    ∧ get_completion
        { closing_stack := [],
          state := JSONState.Brace (BraceState.InValue PrimValue.NestedValueCompleted),
          is_corrupted := false }
      ≠ Except.ok "" := by
  constructor
  · rfl
  · have h1 : get_completion
        { closing_stack := [],
          state := JSONState.Brace (BraceState.InValue PrimValue.NestedValueCompleted),
          is_corrupted := false }
      = Except.error Error.NotClosable := rfl
    rw [h1]
    simp

/-- Claim C4 (amended): immediately after a pop-level close the engine
rewrites the state from the new stack top — `}` gives
`Brace(InValue(NonString(Completable(""))))`, `]` gives
`Bracket(InValue(NonString(Completable(""))))` (the code's representation of
a completed nested value, not a `NestedValueCompleted` state), an empty
stack gives `Pending`, and a string marker leaves the lexer's state. -/
theorem pop_level_transition (b : JSONBalancer) (t : Token)
    (h : isPopLevelToken t = true) :
    handle_pop_state_transition b t =
      { b with state :=
          match b.closing_stack.head? with
          | some ClosingToken.CloseBrace =>
              JSONState.Brace (BraceState.InValue
                (PrimValue.NonString (NonStringState.Completable "")))
          | some ClosingToken.CloseBracket =>
              JSONState.Bracket (BracketState.InValue
                (PrimValue.NonString (NonStringState.Completable "")))
          | none => JSONState.Pending
          | some _ => b.state } := by
  unfold handle_pop_state_transition
  rw [if_pos h]
  rcases hh : b.closing_stack.head? with _ | ct
  · rfl
  · cases ct <;> rfl

theorem pop_level_transition_witness :
    handle_pop_state_transition
        { closing_stack := [ClosingToken.CloseBrace],
          state := JSONState.Pending, is_corrupted := false } Token.CloseBracket
      = { closing_stack := [ClosingToken.CloseBrace],
          state :=
            match ([ClosingToken.CloseBrace] : List ClosingToken).head? with
            | some ClosingToken.CloseBrace =>
                JSONState.Brace (BraceState.InValue
                  (PrimValue.NonString (NonStringState.Completable "")))
            | some ClosingToken.CloseBracket =>
                JSONState.Bracket (BracketState.InValue
                  (PrimValue.NonString (NonStringState.Completable "")))
            | none => JSONState.Pending
            | some _ => JSONState.Pending,
          is_corrupted := false } :=
  pop_level_transition
    { closing_stack := [ClosingToken.CloseBrace],
      state := JSONState.Pending, is_corrupted := false } Token.CloseBracket rfl

/-- Claim C4, counterexample: after the nested `}` of `[` `{` `}` pops the
stack, the stack top is `]`, and the engine state is
`Bracket(InValue(NonString(Completable(""))))`, not the claim's
`InsideArray(InValue(NestedCompleted))`. -/
theorem pop_level_transition_counterexample :
    (add_delta JSONBalancer.new (String.mk ['[', '{', '}'])).1.state
      = JSONState.Bracket (BracketState.InValue
          (PrimValue.NonString (NonStringState.Completable "")))
    ∧ (add_delta JSONBalancer.new (String.mk ['[', '{', '}'])).1.state
      ≠ JSONState.Bracket (BracketState.InValue PrimValue.NestedValueCompleted) := by
  constructor
  · rfl
  · decide

/-- Claim C5: a `u` arriving while a string sub-state is `Escaped` yields
`NotClosable` for that fragment (not `Corrupted`), does not set the sticky
corruption flag, and leaves the sub-state `Escaped`; a subsequent valid
escape resolution can still reach an `Ok` outcome. -/
theorem unicode_escape_soft (stk : List ClosingToken) (st : JSONState)
    (h : st = JSONState.Brace (BraceState.InKey StringState.Escaped)
       ∨ st = JSONState.Brace (BraceState.InValue (PrimValue.String StringState.Escaped))
       ∨ st = JSONState.Bracket (BracketState.InValue (PrimValue.String StringState.Escaped))) :
    (process_delta { closing_stack := stk, state := st, is_corrupted := false } "u").2
        = Except.error Error.NotClosable
    ∧ (process_delta { closing_stack := stk, state := st, is_corrupted := false } "u").1.state
        = st
    ∧ (process_delta
        { closing_stack := stk, state := st, is_corrupted := false } "u").1.is_corrupted
        = false
    ∧ (process_delta
        (process_delta
          { closing_stack := [ClosingToken.CloseBracket],
            state := JSONState.Bracket (BracketState.InValue
              (PrimValue.String StringState.Escaped)),
            is_corrupted := false } "u").1 "\"").2
        = Except.ok (String.mk ['"', '"', ']']) := by
  rcases h with h | h | h <;> subst h <;> exact ⟨rfl, rfl, rfl, rfl⟩

theorem unicode_escape_soft_witness :
    (process_delta
        { closing_stack := [],
          state := JSONState.Brace (BraceState.InKey StringState.Escaped),
          is_corrupted := false } "u").2
      = Except.error Error.NotClosable :=
  (unicode_escape_soft []
    (JSONState.Brace (BraceState.InKey StringState.Escaped)) (Or.inl rfl)).1

/-- Claim C7: a comma after a completed child. The dispatcher routes `,`
from `InValue(NestedValueCompleted)` to `parse_comma`, but `parse_comma`
rejects that state with `UnexpectedComma` (its own dispatcher test
`delimiters_preempt_after_nested_value_completed` asserts acceptance), while
a `Closed` string or `Completable` non-string child is accepted with the
claimed transitions. -/
theorem comma_after_completed_child :
    parse_char ',' (JSONState.Brace (BraceState.InValue PrimValue.NestedValueCompleted))
      = (JSONState.Brace (BraceState.InValue PrimValue.NestedValueCompleted),
         Except.error JSONParseError.UnexpectedComma)
    ∧ parse_char ',' (JSONState.Bracket (BracketState.InValue PrimValue.NestedValueCompleted))
      = (JSONState.Bracket (BracketState.InValue PrimValue.NestedValueCompleted),
         Except.error JSONParseError.UnexpectedComma)
    ∧ parse_char ','
        (JSONState.Brace (BraceState.InValue (PrimValue.String StringState.Closed)))
      = (JSONState.Brace BraceState.ExpectingKey, Except.ok Token.Comma)
    ∧ parse_char ','
        (JSONState.Bracket (BracketState.InValue (PrimValue.String StringState.Closed)))
      = (JSONState.Bracket BracketState.ExpectingValue, Except.ok Token.Comma)
    ∧ parse_char ','
        (JSONState.Brace (BraceState.InValue
          (PrimValue.NonString (NonStringState.Completable "1"))))
      = (JSONState.Brace BraceState.ExpectingKey, Except.ok Token.Comma)
    ∧ parse_char ','
        (JSONState.Bracket (BracketState.InValue
          (PrimValue.NonString (NonStringState.Completable "1"))))
      = (JSONState.Bracket BracketState.ExpectingValue, Except.ok Token.Comma) :=
  ⟨rfl, rfl, rfl, rfl, rfl, rfl⟩

/-- Claim C8: a structural close on an empty stack yields the empty-on-close
error; a close whose marker differs from the stack top yields the mismatch
error and leaves the stack unchanged (the top is not discarded); and in the
engine loop any stack error other than `NotAStructuralToken` sets the sticky
corruption flag and reports `Corrupted`. -/
theorem stack_close_errors :
    (∀ (t : Token) (ct : ClosingToken), tokenClosing t = some ct →
        modify_stack [] t
          = ([], Except.error TokenProcessingError.CorruptedStackEmptyOnClose))
    ∧ (∀ (t : Token) (ct top : ClosingToken) (rest : List ClosingToken),
        tokenClosing t = some ct → ct ≠ top →
        modify_stack (top :: rest) t
          = (top :: rest,
             Except.error TokenProcessingError.CorruptedStackMismatchedTokens))
    ∧ (∀ (b : JSONBalancer) (c : Char) (st2 : JSONState) (tok : Token)
        (stk2 : List ClosingToken) (e : TokenProcessingError),
        parse_char c b.state = (st2, Except.ok tok) →
        modify_stack b.closing_stack tok = (stk2, Except.error e) →
        e ≠ TokenProcessingError.NotAStructuralToken →
        (stepChar b c).1.is_corrupted = true
          ∧ (stepChar b c).2 = Except.error Error.Corrupted) := by
  refine ⟨?_, ?_, ?_⟩
  · intro t ct h
    cases t <;>
      first
        | rfl
        | simp [tokenClosing, structuralTokenOfToken, closingOfStructural] at h
  · intro t ct top rest h hne
    cases t <;>
      simp only [tokenClosing, structuralTokenOfToken, closingOfStructural,
        Option.bind_eq_bind, Option.some_bind, Option.none_bind,
        Option.some.injEq, reduceCtorEq] at h <;>
      subst h <;>
      simp only [modify_stack, structuralTokenOfToken, openingOfStructural,
        closingOfStructural] <;>
      rw [if_neg hne]
  · intro b c st2 tok stk2 e hp hm hne
    cases e with
    | NotAStructuralToken => exact absurd rfl hne
    | NotClosable =>
      unfold stepChar
      rw [hp]
      dsimp only
      rw [hm]
      exact ⟨rfl, rfl⟩
    | NotAnOpeningOrClosingToken =>
      unfold stepChar
      rw [hp]
      dsimp only
      rw [hm]
      exact ⟨rfl, rfl⟩
    | NotAnOpeningToken =>
      unfold stepChar
      rw [hp]
      dsimp only
      rw [hm]
      exact ⟨rfl, rfl⟩
    | NotAClosingToken =>
      unfold stepChar
      rw [hp]
      dsimp only
      rw [hm]
      exact ⟨rfl, rfl⟩
    | CorruptedStackMismatchedTokens =>
      unfold stepChar
      rw [hp]
      dsimp only
      rw [hm]
      exact ⟨rfl, rfl⟩
    | CorruptedStackEmptyOnClose =>
      unfold stepChar
      rw [hp]
      dsimp only
      rw [hm]
      exact ⟨rfl, rfl⟩

theorem stack_close_errors_witness :
    modify_stack [] Token.CloseBracket
      = ([], Except.error TokenProcessingError.CorruptedStackEmptyOnClose) :=
  stack_close_errors.1 Token.CloseBracket ClosingToken.CloseBracket rfl

/-- Claim C1, evaluation at a failing input: feeding the fragments of the
crate's own `MESSY_CHUNK_SPLIT_ESCAPE` test to a fresh engine returns
`Ok("\"\"\"]")` (each backslash and escape resolution returns the structural
`OpenStringData` token, which pushes a spurious string marker), the
concatenation of input and suffix is not a valid JSON document under the
reference parser, while the suffix `"\"]"` expected by that test would have
made it valid. -/
theorem roundtrip_escape_failure :
    (process_delta (process_delta JSONBalancer.new "[\"\\").1 "\"abc").2
      = Except.ok (String.mk ['"', '"', '"', ']'])
    ∧ refJsonDocument
        (String.mk ("[\"\\".data ++ "\"abc".data ++ ['"', '"', '"', ']'])) = false
    ∧ refJsonDocument
        (String.mk ("[\"\\".data ++ "\"abc".data ++ ['"', ']'])) = true :=
  ⟨rfl, rfl, rfl⟩

theorem lit_head_of_mem (s : List Char) (h : ∃ lit ∈ LITERALS, lit.data = s) :
    s.headD (Char.ofNat 0) = 't' ∨ s.headD (Char.ofNat 0) = 'f'
      ∨ s.headD (Char.ofNat 0) = 'n' := by
  rcases h with ⟨lit, hmem, hdat⟩
  simp only [LITERALS, List.mem_cons, List.not_mem_nil, or_false] at hmem
  rcases hmem with h1 | h1 | h1 <;> subst h1 <;> rw [← hdat]
  · exact Or.inl rfl
  · exact Or.inr (Or.inl rfl)
  · exact Or.inr (Or.inr rfl)

theorem oracleCore_characterization (s : List Char) :
    (oracleCore s = Except.ok CompletionCheckValues.Complete ↔ oracleCompleteSpec s)
    ∧ (oracleCore s = Except.ok CompletionCheckValues.Incomplete ↔ oracleIncompleteSpec s)
    ∧ ((∃ e, oracleCore s = Except.error e)
        ↔ ¬ oracleCompleteSpec s ∧ ¬ oracleIncompleteSpec s) := by
  unfold oracleCore
  dsimp only
  by_cases h1 : (s.headD (Char.ofNat 0) = 't' || s.headD (Char.ofNat 0) = 'f'
      || s.headD (Char.ofNat 0) = 'n') = true
  · rw [if_pos h1]
    have h1' : s.headD (Char.ofNat 0) = 't' ∨ s.headD (Char.ofNat 0) = 'f'
        ∨ s.headD (Char.ofNat 0) = 'n' := by simpa [or_assoc] using h1
    have hnd : ¬((s.headD (Char.ofNat 0)).isDigit = true ∨ s.headD (Char.ofNat 0) = '-') := by
      rcases h1' with h | h | h <;> rw [h] <;> decide
    by_cases h2 : (LITERALS.any fun lit => lit.data = s) = true
    · rw [if_pos h2]
      have h2' : ∃ lit ∈ LITERALS, lit.data = s := by simpa using h2
      refine ⟨iff_of_true rfl (Or.inl h2'), ?_, ?_⟩
      · apply iff_of_false (by simp)
        rintro (⟨_, hno, _⟩ | ⟨hd, _⟩)
        · exact hno h2'
        · exact hnd hd
      · apply iff_of_false
        · rintro ⟨e, he⟩
          exact absurd he (by simp)
        · rintro ⟨hc, _⟩
          exact hc (Or.inl h2')
    · rw [if_neg h2]
      have h2' : ¬ ∃ lit ∈ LITERALS, lit.data = s := by simpa using h2
      by_cases h3 : (LITERALS.any fun lit => s.isPrefixOf lit.data) = true
      · rw [if_pos h3]
        have h3' : ∃ lit ∈ LITERALS, s.isPrefixOf lit.data = true := by simpa using h3
        refine ⟨?_, iff_of_true rfl (Or.inl ⟨h1', h2', h3'⟩), ?_⟩
        · apply iff_of_false (by simp)
          rintro (hlit | ⟨hd, _⟩)
          · exact h2' hlit
          · exact hnd hd
        · apply iff_of_false
          · rintro ⟨e, he⟩
            exact absurd he (by simp)
          · rintro ⟨_, hi⟩
            exact hi (Or.inl ⟨h1', h2', h3'⟩)
      · rw [if_neg h3]
        have h3' : ¬ ∃ lit ∈ LITERALS, s.isPrefixOf lit.data = true := by simpa using h3
        refine ⟨?_, ?_, ?_⟩
        · apply iff_of_false (by simp)
          rintro (hlit | ⟨hd, _⟩)
          · exact h2' hlit
          · exact hnd hd
        · apply iff_of_false (by simp)
          rintro (⟨_, _, hp⟩ | ⟨hd, _⟩)
          · exact h3' hp
          · exact hnd hd
        · refine iff_of_true ⟨_, rfl⟩ ⟨?_, ?_⟩
          · rintro (hlit | ⟨hd, _⟩)
            · exact h2' hlit
            · exact hnd hd
          · rintro (⟨_, _, hp⟩ | ⟨hd, _⟩)
            · exact h3' hp
            · exact hnd hd
  · rw [if_neg h1]
    have h1' : ¬(s.headD (Char.ofNat 0) = 't' ∨ s.headD (Char.ofNat 0) = 'f'
        ∨ s.headD (Char.ofNat 0) = 'n') := by
      simp only [not_or]
      simpa [and_assoc, not_or] using h1
    have hnl : ¬ ∃ lit ∈ LITERALS, lit.data = s := fun h => h1' (lit_head_of_mem s h)
    by_cases h2 : ((s.headD (Char.ofNat 0)).isDigit || s.headD (Char.ofNat 0) = '-') = true
    · rw [if_pos h2]
      have h2' : (s.headD (Char.ofNat 0)).isDigit = true ∨ s.headD (Char.ofNat 0) = '-' := by
        simpa using h2
      have hs : s ≠ [] := by
        intro hnil
        rw [hnil] at h2'
        revert h2'
        decide
      by_cases h3 : s = ['-']
      · rw [if_pos h3]
        refine ⟨?_, iff_of_true rfl (Or.inr ⟨h2', Or.inl h3⟩), ?_⟩
        · apply iff_of_false (by simp)
          rintro (hlit | ⟨_, hne, _, _⟩)
          · exact hnl hlit
          · exact hne h3
        · apply iff_of_false
          · rintro ⟨e, he⟩
            exact absurd he (by simp)
          · rintro ⟨_, hi⟩
            exact hi (Or.inr ⟨h2', Or.inl h3⟩)
      · rw [if_neg h3]
        by_cases h4 : rustF64Parses s = true
        · rw [if_pos h4]
          by_cases h5 : endsWithChar s '.' = true
          · rw [if_pos h5]
            refine ⟨?_, iff_of_true rfl (Or.inr ⟨h2', Or.inr (Or.inl ⟨h4, h5⟩)⟩), ?_⟩
            · apply iff_of_false (by simp)
              rintro (hlit | ⟨_, _, _, hdot⟩)
              · exact hnl hlit
              · rw [h5] at hdot
                exact Bool.true_eq_false.mp hdot
            · apply iff_of_false
              · rintro ⟨e, he⟩
                exact absurd he (by simp)
              · rintro ⟨_, hi⟩
                exact hi (Or.inr ⟨h2', Or.inr (Or.inl ⟨h4, h5⟩)⟩)
          · rw [if_neg h5]
            have h5' : endsWithChar s '.' = false := by
              rwa [Bool.not_eq_true] at h5
            refine ⟨iff_of_true rfl (Or.inr ⟨h2', h3, h4, h5'⟩), ?_, ?_⟩
            · apply iff_of_false (by simp)
              rintro (⟨hh, _, _⟩ | ⟨_, hcase⟩)
              · exact h1' hh
              · rcases hcase with hm | ⟨_, hdot⟩ | ⟨hf, _⟩ | ⟨hf, _⟩
                · exact h3 hm
                · rw [h5'] at hdot
                  exact Bool.false_ne_true hdot
                · rw [h4] at hf
                  exact Bool.true_eq_false.mp hf
                · rw [h4] at hf
                  exact Bool.true_eq_false.mp hf
            · apply iff_of_false
              · rintro ⟨e, he⟩
                exact absurd he (by simp)
              · rintro ⟨hc, _⟩
                exact hc (Or.inr ⟨h2', h3, h4, h5'⟩)
        · rw [if_neg h4]
          have h4' : rustF64Parses s = false := by rwa [Bool.not_eq_true] at h4
          rcases hlast : s.getLast? with _ | lc
          · exact absurd (List.getLast?_eq_none_iff.mp hlast) hs
          · have hld : s.getLastD (Char.ofNat 0) = lc := by
              rw [List.getLastD_eq_getLast?, hlast]
              rfl
            rw [hld]
            by_cases h6 : (rustF64Parses s.dropLast && (lc = 'e' || lc = 'E')
                && !(s.dropLast.any fun x => x = 'e' || x = 'E')) = true
            · rw [if_pos h6]
              have h6' : rustF64Parses s.dropLast = true ∧ (lc = 'e' ∨ lc = 'E')
                  ∧ (s.dropLast.any fun x => x = 'e' || x = 'E') = false := by
                simpa [and_assoc] using h6
              have hspec3 : oracleIncompleteSpec s := by
                refine Or.inr ⟨h2', Or.inr (Or.inr (Or.inl ⟨h4', h6'.1, ?_, ?_⟩))⟩
                · rcases h6'.2.1 with h | h <;> rw [hlast, h]
                  · exact Or.inl rfl
                  · exact Or.inr rfl
                · intro hex
                  rcases hex with ⟨x, hx, hxe⟩
                  have hnp := List.any_eq_false.mp h6'.2.2 x hx
                  simp only [Bool.or_eq_true, decide_eq_true_eq, not_or] at hnp
                  rcases hxe with h | h
                  · exact hnp.1 h
                  · exact hnp.2 h
              refine ⟨?_, iff_of_true rfl hspec3, ?_⟩
              · apply iff_of_false (by simp)
                rintro (hlit | ⟨_, _, hf, _⟩)
                · exact hnl hlit
                · rw [h4'] at hf
                  exact Bool.false_ne_true hf
              · apply iff_of_false
                · rintro ⟨e, he⟩
                  exact absurd he (by simp)
                · rintro ⟨_, hi⟩
                  exact hi hspec3
            · rw [if_neg h6]
              by_cases h7 : ((endsWithChar s.dropLast 'e' || endsWithChar s.dropLast 'E')
                  && (lc = '+' || lc = '-') && rustF64Parses s.dropLast.dropLast) = true
              · rw [if_pos h7]
                have h7' : (endsWithChar s.dropLast 'e' = true
                      ∨ endsWithChar s.dropLast 'E' = true)
                    ∧ (lc = '+' ∨ lc = '-')
                    ∧ rustF64Parses s.dropLast.dropLast = true := by
                  simpa [and_assoc] using h7
                have hspec4 : oracleIncompleteSpec s := by
                  refine Or.inr ⟨h2', Or.inr (Or.inr (Or.inr ⟨h4', h7'.1, ?_, h7'.2.2⟩))⟩
                  rcases h7'.2.1 with h | h <;> rw [hlast, h]
                  · exact Or.inl rfl
                  · exact Or.inr rfl
                refine ⟨?_, iff_of_true rfl hspec4, ?_⟩
                · apply iff_of_false (by simp)
                  rintro (hlit | ⟨_, _, hf, _⟩)
                  · exact hnl hlit
                  · rw [h4'] at hf
                    exact Bool.false_ne_true hf
                · apply iff_of_false
                  · rintro ⟨e, he⟩
                    exact absurd he (by simp)
                  · rintro ⟨_, hi⟩
                    exact hi hspec4
              · rw [if_neg h7]
                have hnotI : ¬ oracleIncompleteSpec s := by
                  rintro (⟨hh, _, _⟩ | ⟨_, hcase⟩)
                  · exact h1' hh
                  · rcases hcase with hm | ⟨hf, _⟩ | ⟨_, hfp, hee, hna⟩ | ⟨_, hee, hpm, hfq⟩
                    · exact h3 hm
                    · rw [h4'] at hf
                      exact Bool.false_ne_true hf
                    · apply h6
                      have hlc : lc = 'e' ∨ lc = 'E' := by
                        rcases hee with h | h <;> rw [hlast] at h
                        · exact Or.inl (Option.some.inj h)
                        · exact Or.inr (Option.some.inj h)
                      have hany : (s.dropLast.any fun x => x = 'e' || x = 'E') = false := by
                        apply List.any_eq_false.mpr
                        intro x hx
                        simp only [Bool.or_eq_true, decide_eq_true_eq, not_or]
                        constructor
                        · intro hxe
                          exact hna ⟨x, hx, Or.inl hxe⟩
                        · intro hxe
                          exact hna ⟨x, hx, Or.inr hxe⟩
                      rcases hlc with h | h <;>
                        simp [hfp, h, hany]
                    · apply h7
                      have hlc : lc = '+' ∨ lc = '-' := by
                        rcases hpm with h | h <;> rw [hlast] at h
                        · exact Or.inl (Option.some.inj h)
                        · exact Or.inr (Option.some.inj h)
                      rcases hee with h | h <;> rcases hlc with h' | h' <;>
                        simp [h, h', hfq]
                have hnotC : ¬ oracleCompleteSpec s := by
                  rintro (hlit | ⟨_, _, hf, _⟩)
                  · exact hnl hlit
                  · rw [h4'] at hf
                    exact Bool.false_ne_true hf
                refine ⟨iff_of_false (by simp) hnotC, iff_of_false (by simp) hnotI,
                  iff_of_true ⟨_, rfl⟩ ⟨hnotC, hnotI⟩⟩
    · rw [if_neg h2]
      have h2' : ¬((s.headD (Char.ofNat 0)).isDigit = true
          ∨ s.headD (Char.ofNat 0) = '-') := by simpa using h2
      have hnotC : ¬ oracleCompleteSpec s := by
        rintro (hlit | ⟨hd, _⟩)
        · exact hnl hlit
        · exact h2' hd
      have hnotI : ¬ oracleIncompleteSpec s := by
        rintro (⟨hh, _, _⟩ | ⟨hd, _⟩)
        · exact h1' hh
        · exact h2' hd
      exact ⟨iff_of_false (by simp) hnotC, iff_of_false (by simp) hnotI,
        iff_of_true ⟨_, rfl⟩ ⟨hnotC, hnotI⟩⟩

/-- Claim C6 (amended): with `s = b · c`, the oracle returns `Complete`
exactly when `s` is a keyword, or starts with a digit or `-`, differs from
`"-"`, is accepted by Rust's float grammar (which over-accepts relative to
JSON numbers: leading zeros, a leading `+`, `inf`/`nan` forms) and does not
end with `.`; it returns `Incomplete` exactly when `s` is a strict prefix of
a keyword, or is `"-"`, or is float-accepted ending with `.`, or is a
float-accepted numeral followed by its first exponent letter, or such an
exponent head followed by a sign; otherwise it returns an `Invalid` error. -/
theorem oracle_verdicts (c : Char) (b : String) :
    (is_non_valid_non_string_data c b = Except.ok CompletionCheckValues.Complete
       ↔ oracleCompleteSpec (b.data ++ [c]))
    ∧ (is_non_valid_non_string_data c b = Except.ok CompletionCheckValues.Incomplete
       ↔ oracleIncompleteSpec (b.data ++ [c]))
    ∧ ((∃ e, is_non_valid_non_string_data c b = Except.error e)
       ↔ ¬ oracleCompleteSpec (b.data ++ [c]) ∧ ¬ oracleIncompleteSpec (b.data ++ [c])) :=
  oracleCore_characterization (b.data ++ [c])

/-- Claim C6, counterexample: for buffer "0" and character '0' the oracle
answers `Complete`, yet "00" is neither a complete valid JSON number under
the reference grammar (leading zero) nor a keyword. -/
theorem oracle_counterexample :
    is_non_valid_non_string_data '0' "0" = Except.ok CompletionCheckValues.Complete
    ∧ refJsonNumber (String.mk ['0', '0']) = false
    ∧ (LITERALS.any fun lit => lit.data = ['0', '0']) = false :=
  ⟨rfl, rfl, rfl⟩
